import Mathlib

/-!
# Verification of the stellartfan archive synchronization engine

A shallow embedding of the core of the repository:

* `scripts/fetch_videos.js`  — the Discovery component (video registry rebuild),
* `scripts/fetch_comments.js` — the live-status Chat Archiver (session
  resolution, resumable pagination, merge/dedup of chat transcripts).

Conventions of the embedding:

* ISO-8601 timestamp strings (`publishedAt`, message `t`) are modelled by their
  parsed epoch value as a `Nat`: the JS comparators `new Date(a) - new Date(b)`
  become `Nat` comparisons.  The dedup key built in the source as the string
  `` `${msg.t}|${msg.m}` `` is modelled as the pair `(t, m)`; this is injective
  because the rendered `Nat` contains no `|` separator.
* JavaScript's `Array.prototype.sort` with a consistent comparator is required
  by the language spec to be stable; a stable sort's output is unique, so it is
  modelled by `sortOn`, a stable insertion sort on a `Nat` key.
* JS objects used as string-keyed dictionaries (`state`, the `Map` in
  Discovery) are modelled as functions `String → Option _` with pointwise
  update (`Map.set` / `state[k] = v` is last-wins overwrite).
* Fallible file reads are modelled by `FileRead`: a file can be `missing`
  (fails `fs.existsSync`), `corrupt` (exists but `JSON.parse` throws), or
  `ok v` (parses to a well-shaped value `v`).
* The one thrown error the embedded code can produce (`videos.json` missing or
  invalid in the Archiver, lines 93-97 of `fetch_comments.js`, which reaches
  `main().catch` and `process.exit(1)`) is an `Except.error`.
* Upstream (the YouTube Data API) is an oracle: a session-handle query per
  video (`getLiveChatId`, with `|| null` so an empty id is already `none`) and
  a positional stream of chat pages per live-chat id.  Mapping an API item's
  `snippet` to a message record (`publishedAt → t`,
  `floor(videoOffsetTimeMillis/1000) → o`, `displayMessage → m`,
  `type → type`, source lines 212-219) happens at this oracle boundary, so
  page items are already `Msg` values.
* The run additionally records an observation trace (which videos were
  attempted, which session queries were issued, transcript writes) so that
  quota and short-circuit properties can be stated; the trace does not affect
  the computation.
-/

/-- One chat message as stored in a transcript document
(`fetch_comments.js` lines 212-219): `t` the publish time, `o` the offset in
seconds, `m` the display text, `type` the message category. -/
structure Msg where
  t : Nat
  o : Nat
  m : String
  type : String
deriving DecidableEq, Repr

/-- The dedup identity key of a message: the source builds the string
`` `${msg.t}|${msg.m}` `` (lines 249-251); we model it as the pair. -/
def msgKey (msg : Msg) : Nat × String := (msg.t, msg.m)

/-! ## A stable insertion sort on a `Nat` key

Models `Array.prototype.sort` with the comparators
`(a, b) => new Date(a.t) - new Date(b.t)` (fetch_comments.js line 260) and
`(a, b) => new Date(a.publishedAt) - new Date(b.publishedAt)`
(fetch_videos.js line 172).  JS `sort` is stable, and a stable sort's output
is uniquely determined, so insertion sort is an exact model. -/

def insertOn (key : α → Nat) (x : α) : List α → List α
  | [] => [x]
  | y :: ys => if key x ≤ key y then x :: y :: ys else y :: insertOn key x ys

def sortOn (key : α → Nat) : List α → List α
  | [] => []
  | x :: xs => insertOn key x (sortOn key xs)

theorem perm_insertOn (key : α → Nat) (x : α) (l : List α) :
    (insertOn key x l).Perm (x :: l) := by
  induction l with
  | nil => simp [insertOn]
  | cons y ys ih =>
    simp only [insertOn]
    split
    · exact List.Perm.refl _
    · exact ((ih.cons y).trans (List.Perm.swap x y ys))

theorem perm_sortOn (key : α → Nat) (l : List α) : (sortOn key l).Perm l := by
  induction l with
  | nil => simp [sortOn]
  | cons x xs ih =>
    exact (perm_insertOn key x (sortOn key xs)).trans (ih.cons x)

theorem mem_sortOn (key : α → Nat) (a : α) (l : List α) :
    a ∈ sortOn key l ↔ a ∈ l :=
  (perm_sortOn key l).mem_iff

theorem sorted_insertOn (key : α → Nat) (x : α) (l : List α)
    (h : l.Pairwise (fun a b => key a ≤ key b)) :
    (insertOn key x l).Pairwise (fun a b => key a ≤ key b) := by
  induction l with
  | nil => simp [insertOn]
  | cons y ys ih =>
    rcases List.pairwise_cons.mp h with ⟨hy, hys⟩
    simp only [insertOn]
    split
    · rename_i hxy
      refine List.pairwise_cons.mpr ⟨?_, h⟩
      intro b hb
      rcases List.mem_cons.mp hb with rfl | hb
      · exact hxy
      · exact Nat.le_trans hxy (hy b hb)
    · rename_i hxy
      have hyx : key y ≤ key x := Nat.le_of_not_le hxy
      refine List.pairwise_cons.mpr ⟨?_, ih hys⟩
      intro b hb
      rcases List.mem_cons.mp (((perm_insertOn key x ys).mem_iff).mp hb) with rfl | h1
      · exact hyx
      · exact hy b h1

theorem sorted_sortOn (key : α → Nat) (l : List α) :
    (sortOn key l).Pairwise (fun a b => key a ≤ key b) := by
  induction l with
  | nil => simp [sortOn]
  | cons x xs ih => exact sorted_insertOn key x (sortOn key xs) ih

theorem sortOn_eq_of_sorted (key : α → Nat) (l : List α)
    (h : l.Pairwise (fun a b => key a ≤ key b)) : sortOn key l = l := by
  induction l with
  | nil => rfl
  | cons x xs ih =>
    rcases List.pairwise_cons.mp h with ⟨hx, hxs⟩
    simp only [sortOn, ih hxs]
    cases xs with
    | nil => rfl
    | cons y ys =>
      simp only [insertOn, if_pos (hx y (List.mem_cons_self y ys))]

/-! ## The merge/dedup algorithm (`fetch_comments.js` lines 248-261)

```js
const existingTimestamps = new Set(existing.messages.map(msg => `${msg.t}|${msg.m}`));
const uniqueNewMessages = newMessages.filter(msg => !existingTimestamps.has(`${msg.t}|${msg.m}`));
existing.messages = [...existing.messages, ...uniqueNewMessages].sort(
  (a, b) => new Date(a.t) - new Date(b.t));
```
-/

/-- Membership in the identity-key set of a message list (`Set.has` on the
key strings, lines 249-255). -/
def hasKey (l : List Msg) (k : Nat × String) : Bool :=
  l.any fun msg => decide (msgKey msg = k)

/-- The merge step applied to the existing transcript's message list and the
newly fetched batch. -/
def mergeMessages (existing newMessages : List Msg) : List Msg :=
  sortOn (fun msg => msg.t)
    (existing ++ newMessages.filter (fun msg => !(hasKey existing (msgKey msg))))

theorem hasKey_iff (l : List Msg) (k : Nat × String) :
    hasKey l k = true ↔ ∃ msg ∈ l, msgKey msg = k := by
  simp [hasKey, List.any_eq_true]

theorem mem_mergeMessages (existing newMessages : List Msg) (x : Msg) :
    x ∈ mergeMessages existing newMessages ↔
      x ∈ existing ∨
        (x ∈ newMessages ∧ hasKey existing (msgKey x) = false) := by
  simp only [mergeMessages, mem_sortOn, List.mem_append, List.mem_filter,
    Bool.not_eq_true']

/-- The dedup-correctness property exactly as the spec states it, for an
existing transcript `E` and a new batch `N`: the merge contains every message
of `E`; it contains every message of `N` whose identity key is not in `E`, and
nothing else; it has no two messages with the same identity key; and it is
sorted ascending by timestamp. -/
def mergeClaim (E N : List Msg) : Prop :=
  (∀ e ∈ E, e ∈ mergeMessages E N) ∧
  (∀ n ∈ N, hasKey E (msgKey n) = false → n ∈ mergeMessages E N) ∧
  (∀ x ∈ mergeMessages E N, x ∈ E ∨ (x ∈ N ∧ hasKey E (msgKey x) = false)) ∧
  (mergeMessages E N).Pairwise (fun a b => msgKey a ≠ msgKey b) ∧
  (mergeMessages E N).Pairwise (fun a b => a.t ≤ b.t)

/-- A message used by the merge counterexample. -/
def msg0 : Msg := { t := 0, o := 0, m := "a", type := "textMessageEvent" }

/-- C1 (counterexample): with an empty existing transcript and a new batch
holding two copies of the same message, the merged list keeps both copies —
the filter only removes keys already present in the existing transcript and
never deduplicates the new batch against itself — so the claimed
"no two messages with the same identity key" fails. -/
theorem mergeClaim_counterexample : ¬ mergeClaim [] [msg0, msg0] := by
  intro h
  have hpair := h.2.2.2.1
  revert hpair
  decide

/-- C1 (amended): the dedup-correctness property holds for every existing
transcript `E` and new batch `N` that are each internally free of identity-key
duplicates.  (The unconditional claim fails: a duplicate inside `N` survives
the merge, see the counterexample.) -/
theorem merge_dedup_correct (E N : List Msg)
    (hE : E.Pairwise (fun a b => msgKey a ≠ msgKey b))
    (hN : N.Pairwise (fun a b => msgKey a ≠ msgKey b)) :
    mergeClaim E N := by
  refine ⟨?_, ?_, ?_, ?_, ?_⟩
  · intro e he
    exact (mem_mergeMessages E N e).mpr (Or.inl he)
  · intro n hn hkey
    exact (mem_mergeMessages E N n).mpr (Or.inr ⟨hn, hkey⟩)
  · intro x hx
    exact (mem_mergeMessages E N x).mp hx
  · have hperm := perm_sortOn (fun msg => msg.t)
      (E ++ N.filter (fun msg => !(hasKey E (msgKey msg))))
    have hsymm : Symmetric (fun a b : Msg => msgKey a ≠ msgKey b) :=
      fun _ _ hab => fun hba => hab hba.symm
    refine (hperm.pairwise_iff (fun hab => hsymm hab)).mpr ?_
    refine List.pairwise_append.mpr ⟨hE, hN.sublist (List.filter_sublist N), ?_⟩
    intro a ha b hb hab
    have hbk : hasKey E (msgKey b) = false :=
      Bool.not_eq_true' .. |>.mp (List.mem_filter.mp hb).2
    have : hasKey E (msgKey b) = true :=
      (hasKey_iff E (msgKey b)).mpr ⟨a, ha, hab⟩
    simp [this] at hbk
  · exact sorted_sortOn _ _

/-- C1 (witness): the amended dedup-correctness theorem applied to a concrete
transcript and batch. -/
theorem merge_dedup_correct_witness :
    mergeClaim [{ t := 3, o := 1, m := "hi", type := "textMessageEvent" }]
      [msg0, { t := 3, o := 1, m := "hi", type := "textMessageEvent" }] :=
  merge_dedup_correct _ _ (by decide) (by decide)

/-- C9: merging the same batch a second time changes nothing.  Every message
of `N` has its identity key present in `merge E N` (either it was already in
`E`, or it survived the filter), so the second filter drops all of `N` and the
second sort re-sorts an already-sorted list. -/
theorem merge_idempotent (E N : List Msg) :
    mergeMessages (mergeMessages E N) N = mergeMessages E N := by
  have hall : ∀ n ∈ N, hasKey (mergeMessages E N) (msgKey n) = true := by
    intro n hn
    rcases hk : hasKey E (msgKey n) with _ | _
    · exact (hasKey_iff _ _).mpr
        ⟨n, (mem_mergeMessages E N n).mpr (Or.inr ⟨hn, hk⟩), rfl⟩
    · rcases (hasKey_iff E (msgKey n)).mp hk with ⟨e, he, hek⟩
      exact (hasKey_iff _ _).mpr
        ⟨e, (mem_mergeMessages E N e).mpr (Or.inl he), hek⟩
  have hfilter :
      N.filter (fun msg => !(hasKey (mergeMessages E N) (msgKey msg))) = [] := by
    refine List.filter_eq_nil_iff.mpr ?_
    intro n hn
    simp [hall n hn]
  have hsorted : (mergeMessages E N).Pairwise (fun a b => a.t ≤ b.t) :=
    sorted_sortOn _ _
  calc mergeMessages (mergeMessages E N) N
      = sortOn (fun msg => msg.t) (mergeMessages E N ++ []) := by
        rw [mergeMessages, hfilter]
    _ = sortOn (fun msg => msg.t) (mergeMessages E N) := by rw [List.append_nil]
    _ = mergeMessages E N := sortOn_eq_of_sorted _ _ hsorted

/-! ## Data model shared by Discovery and the Archiver -/

/-- Result of reading a JSON state file from disk. -/
inductive FileRead (α : Type) where
  | missing
  | corrupt
  | ok (val : α)

/-- One registry entry of `videos.json` (`fetch_videos.js` lines 140-149). -/
structure VideoEntry where
  videoId : String
  channelKey : String
  channelName : String
  publishedAt : Nat
  title : String
  status : String
  chatFetched : Bool
deriving DecidableEq, Repr

/-- One channel definition from `scripts/config/channels.js`.  The source
guards the exclusion list with `Array.isArray`; a missing or non-array field
is modelled as the empty list, which the guard makes behaviourally equal. -/
structure Channel where
  channelId : String
  channelName : String
  freechatVideoId : String
  excludeVideoIds : List String
deriving DecidableEq, Repr

/-- The upstream view of one uploaded video, as Discovery sees it after
joining the uploads-playlist listing with the `videos.list` detail call
(`fetch_videos.js` lines 73-121): identifier, parsed `snippet.publishedAt`,
`snippet.title`, whether `liveStreamingDetails` is present at all, and the
reported actual start/end times. -/
structure RawVideo where
  id : String
  publishedAt : Nat
  title : String
  hasLive : Bool
  actualStartTime : Option Nat
  actualEndTime : Option Nat
deriving DecidableEq, Repr

/-! ## Discovery (`fetch_videos.js`) -/

/-- Point update of a string-keyed map, modelling `Map.set` (last wins). -/
def mapUpd (m : String → Option Bool) (k : String) (b : Bool) :
    String → Option Bool :=
  fun x => if x = k then some b else m x

/-- `loadExistingChatFetchedMap` (`fetch_videos.js` lines 31-48): restore
`videoId → chatFetched` from the existing `videos.json`; a missing file,
unparsable JSON, or a non-array document yields the empty map; entries with a
falsy (empty) `videoId` are skipped. -/
def loadExistingChatFetchedMap (file : FileRead (List VideoEntry)) :
    String → Option Bool :=
  match file with
  | .ok arr =>
    arr.foldl
      (fun m v => if v.videoId = "" then m else mapUpd m v.videoId v.chatFetched)
      (fun _ => none)
  | _ => fun _ => none

/-- `fetchLiveArchives` (`fetch_videos.js` lines 104-154): keep only
archival-eligible videos — not the free-chat video, not excluded, and carrying
`liveStreamingDetails` — and build their registry entries.  The source walks
the id list in 50-id chunks and concatenates the per-chunk results in order,
which is the same traversal as one pass.  Status is
`live.actualEndTime ? 'ended' : 'live'` (line 146). -/
def fetchLiveArchives (raws : List RawVideo) (channelKey : String)
    (channel : Channel) : List VideoEntry :=
  raws.filterMap fun video =>
    if video.id = channel.freechatVideoId then none
    else if channel.excludeVideoIds.contains video.id then none
    else if !video.hasLive then none
    else some {
      videoId := video.id
      channelKey := channelKey
      channelName := channel.channelName
      publishedAt := video.publishedAt
      title := video.title
      status := if video.actualEndTime.isSome then "ended" else "live"
      chatFetched := false }

/-- The concatenation `allVideos.push(...archives)` over all configured
channels (`fetch_videos.js` lines 160-168); `up` maps a channel key to the
upstream videos of that channel's uploads playlist. -/
def buildAll (channels : List (String × Channel))
    (up : String → List RawVideo) : List VideoEntry :=
  (channels.map fun c => fetchLiveArchives (up c.1) c.1 c.2).flatten

/-- One step of the carry-over loop (`fetch_videos.js` lines 176-180): if the
old registry knew this `videoId`, overwrite `chatFetched` with the remembered
value (`existingChatFetched.has` / `.get`). -/
def carryOne (m : String → Option Bool) (v : VideoEntry) : VideoEntry :=
  match m v.videoId with
  | some b => { v with chatFetched := b }
  | none => v

/-- The carry-over loop over the rebuilt registry. -/
def applyCarry (m : String → Option Bool) (vs : List VideoEntry) :
    List VideoEntry :=
  vs.map (carryOne m)

/-- `main` of `fetch_videos.js` (lines 156-190): rebuild the registry from
upstream, sort ascending by `publishedAt`, then carry over `chatFetched`. -/
def discoveryMain (existingFile : FileRead (List VideoEntry))
    (channels : List (String × Channel)) (up : String → List RawVideo) :
    List VideoEntry :=
  applyCarry (loadExistingChatFetchedMap existingFile)
    (sortOn VideoEntry.publishedAt (buildAll channels up))

/-! ### Lemmas about the chatFetched carry-over map -/

/-- The fold inside `loadExistingChatFetchedMap`, with an arbitrary starting
map, for induction. -/
def chatFetchedFold (arr : List VideoEntry) (m : String → Option Bool) :
    String → Option Bool :=
  arr.foldl
    (fun m v => if v.videoId = "" then m else mapUpd m v.videoId v.chatFetched)
    m

theorem loadExistingChatFetchedMap_ok (arr : List VideoEntry) :
    loadExistingChatFetchedMap (.ok arr) = chatFetchedFold arr (fun _ => none) :=
  rfl

theorem chatFetchedFold_empty_id (arr : List VideoEntry)
    (m : String → Option Bool) : chatFetchedFold arr m "" = m "" := by
  induction arr generalizing m with
  | nil => rfl
  | cons v tl ih =>
    simp only [chatFetchedFold, List.foldl_cons] at *
    rw [ih]
    split
    · rfl
    · rename_i hv
      simp [mapUpd, Ne.symm hv]

theorem chatFetchedFold_not_mem (arr : List VideoEntry)
    (m : String → Option Bool) (id : String)
    (h : ∀ v ∈ arr, v.videoId ≠ id) : chatFetchedFold arr m id = m id := by
  induction arr generalizing m with
  | nil => rfl
  | cons v tl ih =>
    simp only [chatFetchedFold, List.foldl_cons] at *
    rw [ih _ (fun w hw => h w (List.mem_cons_of_mem v hw))]
    split
    · rfl
    · have hne : ¬ id = v.videoId :=
        fun he => h v (List.mem_cons_self v tl) he.symm
      simp [mapUpd, hne]

theorem chatFetchedFold_uniform (arr : List VideoEntry)
    (m : String → Option Bool) (id : String) (c : Bool) (hid : id ≠ "")
    (hex : ∃ v ∈ arr, v.videoId = id)
    (hall : ∀ v ∈ arr, v.videoId = id → v.chatFetched = c) :
    chatFetchedFold arr m id = some c := by
  induction arr generalizing m with
  | nil => simp at hex
  | cons v tl ih =>
    simp only [chatFetchedFold, List.foldl_cons] at *
    by_cases htl : ∃ w ∈ tl, w.videoId = id
    · exact ih _ htl (fun w hw hwid => hall w (List.mem_cons_of_mem v hw) hwid)
    · have hv : v.videoId = id := by
        rcases hex with ⟨w, hw, hwid⟩
        rcases List.mem_cons.mp hw with rfl | hwtl
        · exact hwid
        · exact absurd ⟨w, hwtl, hwid⟩ htl
      have hnot : ∀ w ∈ tl, w.videoId ≠ id := by
        intro w hw hwid
        exact htl ⟨w, hw, hwid⟩
      have := chatFetchedFold_not_mem tl
        (if v.videoId = "" then m else mapUpd m v.videoId v.chatFetched) id hnot
      rw [chatFetchedFold] at this
      rw [this]
      rw [if_neg (hv ▸ hid ∘ Eq.symm ∘ Eq.symm)]
      simp [mapUpd, hv, hall v (List.mem_cons_self v tl) hv]

theorem loadExistingChatFetchedMap_empty_id
    (file : FileRead (List VideoEntry)) :
    loadExistingChatFetchedMap file "" = none := by
  cases file with
  | ok arr => rw [loadExistingChatFetchedMap_ok, chatFetchedFold_empty_id]
  | missing => rfl
  | corrupt => rfl

/-! ### Lemmas about the rebuilt registry -/

theorem mem_fetchLiveArchives (raws : List RawVideo) (channelKey : String)
    (channel : Channel) (v : VideoEntry)
    (hv : v ∈ fetchLiveArchives raws channelKey channel) :
    ∃ raw ∈ raws, raw.hasLive = true ∧
      v = { videoId := raw.id
            channelKey := channelKey
            channelName := channel.channelName
            publishedAt := raw.publishedAt
            title := raw.title
            status := if raw.actualEndTime.isSome then "ended" else "live"
            chatFetched := false } := by
  rcases List.mem_filterMap.mp hv with ⟨raw, hraw, heq⟩
  refine ⟨raw, hraw, ?_⟩
  split at heq
  · exact Option.noConfusion heq
  split at heq
  · exact Option.noConfusion heq
  split at heq
  · exact Option.noConfusion heq
  · rename_i h3
    refine ⟨by simpa using h3, (Option.some.inj heq).symm⟩

theorem chatFetched_buildAll (channels : List (String × Channel))
    (up : String → List RawVideo) :
    ∀ v ∈ buildAll channels up, v.chatFetched = false := by
  intro v hv
  rcases List.mem_flatten.mp hv with ⟨l, hl, hvl⟩
  rcases List.mem_map.mp hl with ⟨c, _, rfl⟩
  rcases mem_fetchLiveArchives _ _ _ _ hvl with ⟨raw, _, _, rfl⟩
  rfl

theorem videoId_carryOne (m : String → Option Bool) (v : VideoEntry) :
    (carryOne m v).videoId = v.videoId := by
  rw [carryOne]
  cases m v.videoId <;> rfl

theorem chatFetched_carryOne (m : String → Option Bool) (v : VideoEntry) :
    (carryOne m v).chatFetched =
      match m v.videoId with
      | some b => b
      | none => v.chatFetched := by
  rw [carryOne]
  cases m v.videoId <;> rfl

theorem map_videoId_applyCarry (m : String → Option Bool)
    (vs : List VideoEntry) :
    (applyCarry m vs).map VideoEntry.videoId = vs.map VideoEntry.videoId := by
  rw [applyCarry, List.map_map]
  exact List.map_congr_left fun v _ => videoId_carryOne m v

theorem videoEntry_set_chatFetched_self (v : VideoEntry)
    (h : v.chatFetched = false) : { v with chatFetched := false } = v := by
  cases v
  simp at h
  rw [h]

theorem applyCarry_congr (m1 m2 : String → Option Bool) (l : List VideoEntry)
    (h : ∀ v ∈ l, carryOne m1 v = carryOne m2 v) :
    applyCarry m1 l = applyCarry m2 l := by
  rw [applyCarry, applyCarry]
  exact List.map_congr_left h

/-! ## Claims about Discovery -/

/-- C2 (counterexample): an entry present in the old registry whose videoId is
not reported by upstream in this run is dropped entirely — its `chatFetched`
value does not survive the run, because Discovery rebuilds the registry from
the upstream response alone (`fetch_videos.js` lines 157-187). -/
theorem discovery_drops_unreported :
    ({ videoId := "A", channelKey := "channelA", channelName := "n",
       publishedAt := 10, title := "t", status := "ended",
       chatFetched := true } : VideoEntry).chatFetched = true ∧
    discoveryMain
      (.ok [{ videoId := "A", channelKey := "channelA", channelName := "n",
              publishedAt := 10, title := "t", status := "ended",
              chatFetched := true }])
      [] (fun _ => []) = [] :=
  ⟨rfl, rfl⟩

/-- C2 (amended): Discovery preserves `chatFetched` for every videoId of the
old registry **that upstream still reports in this run** (unreported entries
are dropped, see the counterexample); a videoId unknown to the old registry
comes out with `chatFetched = false`; and a second Discovery run over
identical upstream responses reproduces the registry exactly. -/
theorem discovery_upsert_idempotent (existingFile : FileRead (List VideoEntry))
    (channels : List (String × Channel)) (up : String → List RawVideo) :
    (∀ id b, loadExistingChatFetchedMap existingFile id = some b →
      (∃ v ∈ buildAll channels up, v.videoId = id) →
      (∃ w ∈ discoveryMain existingFile channels up, w.videoId = id) ∧
        ∀ w ∈ discoveryMain existingFile channels up,
          w.videoId = id → w.chatFetched = b) ∧
    (∀ id, loadExistingChatFetchedMap existingFile id = none →
      ∀ w ∈ discoveryMain existingFile channels up,
        w.videoId = id → w.chatFetched = false) ∧
    discoveryMain (.ok (discoveryMain existingFile channels up)) channels up =
      discoveryMain existingFile channels up := by
  set m := loadExistingChatFetchedMap existingFile with hm
  have hmemS : ∀ v, v ∈ sortOn VideoEntry.publishedAt (buildAll channels up) ↔
      v ∈ buildAll channels up := fun v => mem_sortOn _ v _
  refine ⟨?_, ?_, ?_⟩
  · intro id b hb ⟨v, hv, hvid⟩
    constructor
    · refine ⟨carryOne m v, List.mem_map_of_mem _ ((hmemS v).mpr hv), ?_⟩
      rw [videoId_carryOne, hvid]
    · intro w hw hwid
      rcases List.mem_map.mp hw with ⟨u, hu, rfl⟩
      rw [videoId_carryOne] at hwid
      rw [chatFetched_carryOne, hwid, ← hm, hb]
  · intro id hid w hw hwid
    rcases List.mem_map.mp hw with ⟨u, hu, rfl⟩
    rw [videoId_carryOne] at hwid
    rw [chatFetched_carryOne, hwid, ← hm, hid]
    exact chatFetched_buildAll channels up u ((hmemS u).mp hu)
  · rw [discoveryMain, discoveryMain, ← hm]
    set S := sortOn VideoEntry.publishedAt (buildAll channels up) with hS
    set R := applyCarry m S with hR
    refine applyCarry_congr _ _ _ ?_
    intro v hv
    have hvb : v ∈ buildAll channels up := (hmemS v).mp hv
    have hvcf : v.chatFetched = false := chatFetched_buildAll channels up v hvb
    by_cases hid : v.videoId = ""
    · have h1 : loadExistingChatFetchedMap (.ok R) v.videoId = none := by
        rw [hid, loadExistingChatFetchedMap_empty_id]
      have h2 : m v.videoId = none := by
        rw [hid, hm, loadExistingChatFetchedMap_empty_id]
      rw [carryOne, carryOne, h1, h2]
    · set c : Bool := (match m v.videoId with
        | some b => b
        | none => false) with hc
      have huniform : ∀ w ∈ R, w.videoId = v.videoId → w.chatFetched = c := by
        intro w hw hwid
        rw [hR, applyCarry] at hw
        rcases List.mem_map.mp hw with ⟨u, hu, rfl⟩
        rw [videoId_carryOne] at hwid
        have hucf : u.chatFetched = false :=
          chatFetched_buildAll channels up u ((hmemS u).mp hu)
        rw [chatFetched_carryOne, hwid, hc]
        cases m v.videoId
        · exact hucf
        · rfl
      have hex : ∃ w ∈ R, w.videoId = v.videoId := by
        rw [hR, applyCarry]
        exact ⟨carryOne m v, List.mem_map_of_mem _ hv, videoId_carryOne m v⟩
      have hlook : loadExistingChatFetchedMap (.ok R) v.videoId = some c := by
        rw [loadExistingChatFetchedMap_ok]
        exact chatFetchedFold_uniform R _ v.videoId c hid hex huniform
      rw [carryOne, hlook, carryOne]
      cases hmv : m v.videoId with
      | some b => rw [hc, hmv]
      | none =>
        rw [hc, hmv]
        exact videoEntry_set_chatFetched_self v hvcf

/-- A concrete channel, upstream video and old registry used by the Discovery
witnesses. -/
def chA : Channel :=
  { channelId := "UC1", channelName := "ChannelA", freechatVideoId := "freeA",
    excludeVideoIds := [] }

def rawA : RawVideo :=
  { id := "A", publishedAt := 10, title := "stream A", hasLive := true,
    actualStartTime := some 1, actualEndTime := some 2 }

def upA : String → List RawVideo := fun k => if k = "channelA" then [rawA] else []

def exA : List VideoEntry :=
  [{ videoId := "A", channelKey := "channelA", channelName := "ChannelA",
     publishedAt := 10, title := "stream A", status := "ended",
     chatFetched := true }]

/-- C2 (witness): on a concrete registry and upstream response that still
reports video `A`, the amended theorem yields preservation of
`chatFetched = true` and idempotency of the run. -/
theorem discovery_upsert_idempotent_witness :
    ((∃ w ∈ discoveryMain (.ok exA) [("channelA", chA)] upA, w.videoId = "A") ∧
      ∀ w ∈ discoveryMain (.ok exA) [("channelA", chA)] upA,
        w.videoId = "A" → w.chatFetched = true) ∧
    discoveryMain (.ok (discoveryMain (.ok exA) [("channelA", chA)] upA))
        [("channelA", chA)] upA =
      discoveryMain (.ok exA) [("channelA", chA)] upA := by
  have h := discovery_upsert_idempotent (.ok exA) [("channelA", chA)] upA
  exact ⟨h.1 "A" true (by decide) (by decide), h.2.2⟩

/-- C6 (counterexample): the old registry holds video `V`, upstream reports
nothing, and after the Discovery run `V` is gone — registry entries **are**
deleted when upstream stops reporting them, because the registry is rebuilt
from the upstream response alone. -/
theorem discovery_deletes_entries :
    "V" ∈ ([{ videoId := "V", channelKey := "channelB", channelName := "n",
              publishedAt := 3, title := "t", status := "ended",
              chatFetched := false }] : List VideoEntry).map VideoEntry.videoId ∧
    discoveryMain
      (.ok [{ videoId := "V", channelKey := "channelB", channelName := "n",
              publishedAt := 3, title := "t", status := "ended",
              chatFetched := false }])
      [] (fun _ => []) = [] := by
  constructor
  · decide
  · rfl

/-- C6 (amended): the videoIds of the Discovery output are exactly (a
permutation of) the videoIds reported archival-eligible by upstream in this
run — entries of the old registry persist only if upstream still reports
them — and the output ids are unique provided the upstream report contains no
duplicate id. -/
theorem discovery_registry_ids (existingFile : FileRead (List VideoEntry))
    (channels : List (String × Channel)) (up : String → List RawVideo) :
    ((discoveryMain existingFile channels up).map VideoEntry.videoId).Perm
      ((buildAll channels up).map VideoEntry.videoId) ∧
    (((buildAll channels up).map VideoEntry.videoId).Nodup →
      ((discoveryMain existingFile channels up).map VideoEntry.videoId).Nodup) := by
  have hperm :
      ((discoveryMain existingFile channels up).map VideoEntry.videoId).Perm
        ((buildAll channels up).map VideoEntry.videoId) := by
    rw [discoveryMain, map_videoId_applyCarry]
    exact (perm_sortOn VideoEntry.publishedAt (buildAll channels up)).map
      VideoEntry.videoId
  exact ⟨hperm, fun hnd => hperm.nodup_iff.mpr hnd⟩

/-- C6 (witness): the amended theorem at the concrete registry and upstream
of the Discovery witnesses, with the uniqueness hypothesis discharged. -/
theorem discovery_registry_ids_witness :
    ((discoveryMain (.ok exA) [("channelA", chA)] upA).map
        VideoEntry.videoId).Perm
      ((buildAll [("channelA", chA)] upA).map VideoEntry.videoId) ∧
    ((discoveryMain (.ok exA) [("channelA", chA)] upA).map
        VideoEntry.videoId).Nodup :=
  ⟨(discovery_registry_ids (.ok exA) [("channelA", chA)] upA).1,
   (discovery_registry_ids (.ok exA) [("channelA", chA)] upA).2 (by decide)⟩

/-- C7 (counterexample): a live-origin video with **neither** a start time nor
an end time (an upcoming scheduled stream) is classified `"live"`, not
`"upcoming"` — the source (`fetch_videos.js` line 146) derives the status as
`live.actualEndTime ? 'ended' : 'live'` and never consults the start time. -/
theorem status_upcoming_counterexample :
    ({ id := "U", publishedAt := 5, title := "scheduled", hasLive := true,
       actualStartTime := none, actualEndTime := none } :
        RawVideo).actualStartTime = none ∧
    ({ id := "U", publishedAt := 5, title := "scheduled", hasLive := true,
       actualStartTime := none, actualEndTime := none } :
        RawVideo).actualEndTime = none ∧
    (fetchLiveArchives
        [{ id := "U", publishedAt := 5, title := "scheduled", hasLive := true,
           actualStartTime := none, actualEndTime := none }]
        "channelA" chA).map VideoEntry.status = ["live"] := by
  refine ⟨rfl, rfl, ?_⟩
  decide

/-- C7 (amended): every entry Discovery classifies as archival-eligible gets
status `"ended"` when upstream reports an actual end time and `"live"`
otherwise — including streams with no start time; the `"upcoming"` status is
never assigned. -/
theorem status_derivation (raws : List RawVideo) (channelKey : String)
    (channel : Channel) :
    ∀ v ∈ fetchLiveArchives raws channelKey channel,
      ∃ raw ∈ raws, raw.hasLive = true ∧ v.videoId = raw.id ∧
        v.status = (if raw.actualEndTime.isSome then "ended" else "live") := by
  intro v hv
  rcases mem_fetchLiveArchives raws channelKey channel v hv with
    ⟨raw, hraw, hlive, rfl⟩
  exact ⟨raw, hraw, hlive, rfl, rfl⟩

/-- C7 (witness): the amended status-derivation theorem applied to the
concrete eligible video `A`, whose reported end time yields `"ended"`. -/
theorem status_derivation_witness :
    ∃ raw ∈ [rawA],
      raw.hasLive = true ∧
      ({ videoId := "A", channelKey := "channelA", channelName := "ChannelA",
         publishedAt := 10, title := "stream A", status := "ended",
         chatFetched := false } : VideoEntry).videoId = raw.id ∧
      ({ videoId := "A", channelKey := "channelA", channelName := "ChannelA",
         publishedAt := 10, title := "stream A", status := "ended",
         chatFetched := false } : VideoEntry).status =
        (if raw.actualEndTime.isSome then "ended" else "live") :=
  status_derivation [rawA] "channelA" chA _ (by decide)

/-! ## The Chat Archiver (`fetch_comments.js`)

The script targets `live`-status videos only (line 132).  Per-video cursor
state is the `comments_state.json` record
`{ liveChatId?: string | null, nextPageToken?: string | null }`; JavaScript
distinguishes an *absent* field (`undefined`) from a stored `null`, so each
field is an `Option (Option String)`: `none` = field absent, `some none` =
stored `null`, `some (some s)` = stored string `s`. -/

/-- Per-video cursor state (`comments_state.json`). -/
structure VState where
  liveChatId : Option (Option String)
  nextPageToken : Option (Option String)
deriving DecidableEq, Repr

/-- A per-video transcript document
(`docs/assets/data/comments/{channelKey}/{videoId}.json`,
`fetch_comments.js` lines 231-238). -/
structure TranscriptDoc where
  videoId : String
  channelKey : String
  channelName : String
  fetchedAt : Nat
  messages : List Msg
deriving DecidableEq, Repr

/-- One response of the paginated `liveChat/messages` query: the items (an
absent `json.items` and an empty array behave identically and are both `[]`)
and the raw `json.nextPageToken` (`none` when absent). -/
structure Page where
  items : List Msg
  next : Option String
deriving Repr

/-- The upstream oracle: `session v` is `getLiveChatId(v)` (already
`|| null`-normalised, so `none` is JS `null`); `pages chatId i` is the `i`-th
chat-page response this run returns for live chat `chatId` (pages are
requested strictly sequentially). -/
structure Upstream where
  session : String → Option String
  pages : String → Nat → Page

/-- Truthiness of the initial-page-token expression
`vState.nextPageToken || ''` is falsy for an absent field, a stored `null`,
and a stored empty string. -/
def tokenFalsy : Option (Option String) → Bool
  | none => true
  | some none => true
  | some (some s) => s == ""

/-- `vState.nextPageToken || ''` (line 191). -/
def tokenOrEmpty : Option (Option String) → String
  | some (some s) => s
  | _ => ""

/-- JS truthiness of a nullable chat id (`!liveChatId`, line 156). -/
def chatIdFalsy : Option String → Bool
  | none => true
  | some s => s == ""

/-- The safety brake `MAX_VIDEOS_PER_RUN` (line 26). -/
def MAX_VIDEOS_PER_RUN : Nat := 5

/-- Point update of the cursor-state dictionary (`state[videoId] = v`). -/
def updState (st : String → Option VState) (k : String) (v : VState) :
    String → Option VState :=
  fun x => if x = k then some v else st x

/-- Point update of the transcript-write overlay (`fs.writeFileSync`). -/
def updWrites (w : String → Option TranscriptDoc) (k : String)
    (d : TranscriptDoc) : String → Option TranscriptDoc :=
  fun x => if x = k then some d else w x

/-- Reading a transcript file during the run (lines 171-180 and 240-246):
files written earlier in this run are visible; otherwise a missing file or
one whose `JSON.parse` throws is treated as absent.  The source reads the
file twice (once to count messages, once to merge); both reads see the same
content, so one read models both.  The separate `fs.existsSync` in the
first-run test (line 184) adds nothing: a file that is missing parses to
nothing, so `!exists || count === 0` is equivalent to `count === 0` under
this read. -/
def readTranscript (writes : String → Option TranscriptDoc)
    (files : String → FileRead TranscriptDoc) (path : String) :
    Option TranscriptDoc :=
  match writes path with
  | some d => some d
  | none =>
    match files path with
    | .ok d => some d
    | _ => none

/-- The fetch loop (lines 195-228), fuelled by the page budget
`MAX_PAGES_PER_RUN`.  Returns the accumulated `newMessages` and the final
`pageToken`: `none` is the JS `null` set when a page has no items or no next
token (pagination exhausted), while `some t` survives only when the budget
runs out with a token still present.  A falsy `json.nextPageToken` is
normalised to `null` (`pageToken = json.nextPageToken || null`, line 223). -/
def fetchLoop (pages : Nat → Page) :
    Option String → Nat → Nat → List Msg → List Msg × Option String
  | tok, _, 0, acc => (acc, tok)
  | _, idx, fuel + 1, acc =>
    let p := pages idx
    if p.items.isEmpty then (acc, none)
    else
      let acc2 := acc ++ p.items
      match p.next with
      | none => (acc2, none)
      | some "" => (acc2, none)
      | some t => fetchLoop pages (some t) (idx + 1) fuel acc2

/-- The whole pagination attempt for one video with resolved chat id: read
the existing transcript to decide first-run vs incremental budget
(1000 vs 10 pages, lines 182-190), then run the fetch loop from the stored
continuation token. -/
def archiveFetch (up : Upstream) (files : String → FileRead TranscriptDoc)
    (st : String → Option VState) (writes : String → Option TranscriptDoc)
    (video : VideoEntry) (chatId : String) : List Msg × Option String :=
  let vState := (st video.videoId).getD { liveChatId := none, nextPageToken := none }
  let path := video.channelKey ++ "/" ++ video.videoId
  let existingDoc := readTranscript writes files path
  let existingMessagesCount :=
    match existingDoc with
    | some d => d.messages.length
    | none => 0
  let isFirstRun :=
    (existingMessagesCount == 0) && tokenFalsy vState.nextPageToken
  let maxPages := if isFirstRun then 1000 else 10
  fetchLoop (up.pages chatId) (some (tokenOrEmpty vState.nextPageToken)) 0
    maxPages []

/-- Accumulator threaded through the per-video loop of `main`: the cursor
dictionary, the transcript files written so far this run, the observation
trace (session queries issued, videos that entered the processing body), and
the `processed` counter. -/
structure RunAcc where
  state : String → Option VState
  writes : String → Option TranscriptDoc
  queried : List String
  attempted : List String
  processed : Nat

/-- The body of `for (const video of videos)` (`fetch_comments.js`
lines 124-290) for a single video; returns the updated accumulator and the
(possibly mutated) registry entry. -/
def processVideo (up : Upstream) (now : Nat) (disallow : List String)
    (files : String → FileRead TranscriptDoc) (acc : RunAcc)
    (video : VideoEntry) : RunAcc × VideoEntry :=
  if disallow.contains video.videoId then (acc, video)
  else if video.status ≠ "live" ∨ video.chatFetched = true ∨
      MAX_VIDEOS_PER_RUN ≤ acc.processed then (acc, video)
  else
    let videoId := video.videoId
    let path := video.channelKey ++ "/" ++ videoId
    let acc1 := { acc with attempted := acc.attempted ++ [videoId] }
    let vState0 := (acc.state videoId).getD
      { liveChatId := none, nextPageToken := none }
    let resolved : Option String × List String :=
      match vState0.liveChatId with
      | some stored => (stored, acc1.queried)
      | none => (up.session videoId, acc1.queried ++ [videoId])
    let liveChatId := resolved.1
    let acc2 := { acc1 with queried := resolved.2 }
    if chatIdFalsy liveChatId then
      ({ acc2 with
          state := updState acc2.state videoId
            { liveChatId := some none, nextPageToken := some none } },
       { video with chatFetched := true })
    else
      let chatId := liveChatId.getD ""
      let vState1 := { vState0 with liveChatId := some (some chatId) }
      let fetched := archiveFetch up files acc2.state acc2.writes video chatId
      let newMessages := fetched.1
      let finalTok := fetched.2
      let existingDoc := readTranscript acc2.writes files path
      let existing0 := existingDoc.getD
        { videoId := videoId, channelKey := video.channelKey,
          channelName := video.channelName, fetchedAt := now, messages := [] }
      let existing1 := { existing0 with
        messages := mergeMessages existing0.messages newMessages
        fetchedAt := now }
      let writes1 := updWrites acc2.writes path existing1
      let post : VState × VideoEntry :=
        match finalTok with
        | none =>
          if video.status = "live" then
            ({ vState1 with nextPageToken := some (some "") }, video)
          else
            ({ vState1 with nextPageToken := some none },
             { video with chatFetched := true })
        | some t => ({ vState1 with nextPageToken := some (some t) }, video)
      ({ acc2 with
          state := updState acc2.state videoId post.1
          writes := writes1
          processed := acc2.processed + 1 },
       post.2)

/-- The per-video loop of `main` over the whole registry. -/
def runLoop (up : Upstream) (now : Nat) (disallow : List String)
    (files : String → FileRead TranscriptDoc) :
    List VideoEntry → RunAcc → List VideoEntry × RunAcc
  | [], acc => ([], acc)
  | v :: vs, acc =>
    let step := processVideo up now disallow files acc v
    let rest := runLoop up now disallow files vs step.1
    (step.2 :: rest.1, rest.2)

/-- The initial accumulator of a run: cursor state as loaded from
`comments_state.json` (a corrupt file is rebuilt as `{}`, lines 113-120),
nothing written, empty trace. -/
def initAcc (stateFile : FileRead (String → Option VState)) : RunAcc :=
  { state :=
      match stateFile with
      | .ok s => s
      | _ => fun _ => none
    writes := fun _ => none
    queried := []
    attempted := []
    processed := 0 }

/-- `main` of `fetch_comments.js` (lines 92-303): a missing `videos.json`
throws (line 94) and an unparsable one lets `JSON.parse` throw (line 97);
both reach `main().catch` and abort the invocation, modelled as
`Except.error`.  Otherwise the loop runs and the final registry, cursor
store and transcript writes are flushed. -/
def archiverMain (videosFile : FileRead (List VideoEntry))
    (stateFile : FileRead (String → Option VState))
    (files : String → FileRead TranscriptDoc) (up : Upstream) (now : Nat)
    (disallow : List String) : Except String (List VideoEntry × RunAcc) :=
  match videosFile with
  | .missing => .error "videos.json not found"
  | .corrupt => .error "videos.json is not valid JSON"
  | .ok videos => .ok (runLoop up now disallow files videos (initAcc stateFile))

/-! ## Claims about the Archiver -/

/-- The selection guard (lines 124-137): a video enters the per-video
processing body iff it is not on the disallow list, its status is `live`, its
chat is not already fetched, and the safety brake has not tripped. -/
def inBody (disallow : List String) (acc : RunAcc) (video : VideoEntry) : Prop :=
  disallow.contains video.videoId = false ∧ video.status = "live" ∧
    video.chatFetched = false ∧ acc.processed < MAX_VIDEOS_PER_RUN

/-- The chat id the body works with (lines 151-154): the stored
`vState.liveChatId` when the field is present (even when `null`), otherwise
the result of the upstream session query. -/
def effectiveChatId (st : String → Option VState) (up : Upstream)
    (videoId : String) : Option String :=
  match ((st videoId).getD { liveChatId := none, nextPageToken := none }).liveChatId with
  | some stored => stored
  | none => up.session videoId

theorem processVideo_terminal (up : Upstream) (now : Nat)
    (disallow : List String) (files : String → FileRead TranscriptDoc)
    (acc : RunAcc) (video : VideoEntry)
    (hb : inBody disallow acc video)
    (hnull : chatIdFalsy (effectiveChatId acc.state up video.videoId) = true) :
    processVideo up now disallow files acc video =
      ({ acc with
          attempted := acc.attempted ++ [video.videoId]
          queried :=
            match ((acc.state video.videoId).getD
                { liveChatId := none, nextPageToken := none }).liveChatId with
            | some _ => acc.queried
            | none => acc.queried ++ [video.videoId]
          state := updState acc.state video.videoId
            { liveChatId := some none, nextPageToken := some none } },
       { video with chatFetched := true }) := by
  have h1 : ¬ video.videoId ∈ disallow := by simpa using hb.1
  have h4 : ¬ MAX_VIDEOS_PER_RUN ≤ acc.processed := Nat.not_le.mpr hb.2.2.2
  rw [effectiveChatId] at hnull
  cases hst : ((acc.state video.videoId).getD
      { liveChatId := none, nextPageToken := none }).liveChatId with
  | some stored =>
    rw [hst] at hnull
    simp [processVideo, h1, hb.2.1, hb.2.2.1, h4, hst, hnull]
  | none =>
    rw [hst] at hnull
    simp [processVideo, h1, hb.2.1, hb.2.2.1, h4, hst, hnull]

theorem processVideo_skip_disallowed (up : Upstream) (now : Nat)
    (disallow : List String) (files : String → FileRead TranscriptDoc)
    (acc : RunAcc) (video : VideoEntry)
    (hd : disallow.contains video.videoId = true) :
    processVideo up now disallow files acc video = (acc, video) := by
  have hd2 : video.videoId ∈ disallow := by simpa using hd
  simp [processVideo, hd2]

theorem processVideo_skip_guard (up : Upstream) (now : Nat)
    (disallow : List String) (files : String → FileRead TranscriptDoc)
    (acc : RunAcc) (video : VideoEntry)
    (h : video.status ≠ "live" ∨ video.chatFetched = true ∨
      MAX_VIDEOS_PER_RUN ≤ acc.processed) :
    processVideo up now disallow files acc video = (acc, video) := by
  rw [processVideo]
  by_cases hd : disallow.contains video.videoId
  · rw [if_pos hd]
  · rw [if_neg hd, if_pos h]

theorem processVideo_fetch (up : Upstream) (now : Nat)
    (disallow : List String) (files : String → FileRead TranscriptDoc)
    (acc : RunAcc) (video : VideoEntry) (chatId : String)
    (hb : inBody disallow acc video)
    (hchat : effectiveChatId acc.state up video.videoId = some chatId)
    (hne : ¬ chatId = "") :
    processVideo up now disallow files acc video =
      (let vState0 := (acc.state video.videoId).getD
         { liveChatId := none, nextPageToken := none }
       let path := video.channelKey ++ "/" ++ video.videoId
       let fetched := archiveFetch up files acc.state acc.writes video chatId
       let existing0 := (readTranscript acc.writes files path).getD
         { videoId := video.videoId, channelKey := video.channelKey,
           channelName := video.channelName, fetchedAt := now, messages := [] }
       let existing1 := { existing0 with
         messages := mergeMessages existing0.messages fetched.1
         fetchedAt := now }
       let post : VState × VideoEntry :=
         match fetched.2 with
         | none =>
           if video.status = "live" then
             ({ liveChatId := some (some chatId),
                nextPageToken := some (some "") }, video)
           else
             ({ liveChatId := some (some chatId), nextPageToken := some none },
              { video with chatFetched := true })
         | some t =>
           ({ liveChatId := some (some chatId),
              nextPageToken := some (some t) }, video)
       ({ acc with
           attempted := acc.attempted ++ [video.videoId]
           queried :=
             match vState0.liveChatId with
             | some _ => acc.queried
             | none => acc.queried ++ [video.videoId]
           state := updState acc.state video.videoId post.1
           writes := updWrites acc.writes path existing1
           processed := acc.processed + 1 },
        post.2)) := by
  have h1 : ¬ video.videoId ∈ disallow := by simpa using hb.1
  have h4 : ¬ MAX_VIDEOS_PER_RUN ≤ acc.processed := Nat.not_le.mpr hb.2.2.2
  have hfalsy : chatIdFalsy (some chatId) = false := by
    simp [chatIdFalsy, hne]
  rw [effectiveChatId] at hchat
  cases hst : ((acc.state video.videoId).getD
      { liveChatId := none, nextPageToken := none }).liveChatId with
  | some stored =>
    rw [hst] at hchat
    have hstored : stored = some chatId := by simpa using hchat
    simp [processVideo, h1, hb.2.1, hb.2.2.1, h4, hst, hstored, hfalsy]
  | none =>
    rw [hst] at hchat
    have hsession : up.session video.videoId = some chatId := by
      simpa using hchat
    simp [processVideo, h1, hb.2.1, hb.2.2.1, h4, hst, hsession, hfalsy]

theorem chatId_of_not_falsy (o : Option String)
    (h : ¬ chatIdFalsy o = true) : ∃ c, o = some c ∧ ¬ c = "" := by
  cases o with
  | none => exact absurd rfl h
  | some c =>
    refine ⟨c, rfl, fun hc => ?_⟩
    rw [hc] at h
    exact h (by simp [chatIdFalsy])

theorem guard_disj (acc : RunAcc) (video : VideoEntry)
    (hg : ¬ (video.status = "live" ∧ video.chatFetched = false ∧
      acc.processed < MAX_VIDEOS_PER_RUN)) :
    video.status ≠ "live" ∨ video.chatFetched = true ∨
      MAX_VIDEOS_PER_RUN ≤ acc.processed := by
  by_cases h1 : video.status = "live"
  · by_cases h2 : video.chatFetched = true
    · exact Or.inr (Or.inl h2)
    · have h2f : video.chatFetched = false := by simpa using h2
      by_cases h3 : acc.processed < MAX_VIDEOS_PER_RUN
      · exact absurd ⟨h1, h2f, h3⟩ hg
      · exact Or.inr (Or.inr (Nat.le_of_not_lt h3))
  · exact Or.inl h1

/-- C10: in the live-status archiver the per-video step never changes
`status`, and `chatFetched` comes out `true` exactly when it was already
`true` or the video entered the processing body and its effective chat id was
falsy (the terminal null-session branch).  In particular the completion
branch at lines 277-281, which requires a non-`live` status after pagination
exhaustion, is unreachable — every video in the body has status `live`
(line 132) and the body never modifies it — so exhausting pagination never
sets `chatFetched` for a live video. -/
theorem chatFetched_only_by_null_session (up : Upstream) (now : Nat)
    (disallow : List String) (files : String → FileRead TranscriptDoc)
    (acc : RunAcc) (video : VideoEntry) :
    (processVideo up now disallow files acc video).2.status = video.status ∧
    ((processVideo up now disallow files acc video).2.chatFetched = true ↔
      video.chatFetched = true ∨
        (inBody disallow acc video ∧
          chatIdFalsy (effectiveChatId acc.state up video.videoId) = true)) := by
  by_cases hd : disallow.contains video.videoId = true
  · rw [processVideo_skip_disallowed up now disallow files acc video hd]
    refine ⟨rfl, Or.inl, ?_⟩
    rintro (h | ⟨hb, _⟩)
    · exact h
    · rw [hb.1] at hd
      exact absurd hd (by simp)
  · have hd2 : disallow.contains video.videoId = false := by simpa using hd
    by_cases hg : video.status = "live" ∧ video.chatFetched = false ∧
        acc.processed < MAX_VIDEOS_PER_RUN
    · have hb : inBody disallow acc video := ⟨hd2, hg.1, hg.2.1, hg.2.2⟩
      by_cases hnull :
          chatIdFalsy (effectiveChatId acc.state up video.videoId) = true
      · rw [processVideo_terminal up now disallow files acc video hb hnull]
        exact ⟨rfl, by simp [hb, hnull]⟩
      · rcases chatId_of_not_falsy _ hnull with ⟨c, hc, hcne⟩
        rw [processVideo_fetch up now disallow files acc video c hb hc hcne]
        cases hft : (archiveFetch up files acc.state acc.writes video c).2 with
        | none =>
          constructor
          · simp [hft, hg.1]
          · simp [hft, hg.1, hg.2.1, hnull]
        | some t =>
          constructor
          · simp [hft]
          · simp [hft, hg.2.1, hnull]
    · rw [processVideo_skip_guard up now disallow files acc video
        (guard_disj acc video hg)]
      refine ⟨rfl, Or.inl, ?_⟩
      rintro (h | ⟨hb, _⟩)
      · exact h
      · exact absurd ⟨hb.2.1, hb.2.2.1, hb.2.2.2⟩ hg

/-- C3: when a candidate's effective chat id is falsy (the stored cursor
already holds `null`, or the one session query returns `null`), the body
marks `chatFetched = true`, stores the terminal cursor record
`{ liveChatId: null, nextPageToken: null }`, writes no transcript file, does
not count the video as processed, and moves on.  Afterwards the entry is
skipped outright on any later run (its `chatFetched` is `true`), and a stored
`null` handle alone already short-circuits the session query: no upstream
session query is ever issued again for the video. -/
theorem null_session_terminal (up : Upstream) (now : Nat)
    (disallow : List String) (files : String → FileRead TranscriptDoc)
    (acc : RunAcc) (video : VideoEntry)
    (hb : inBody disallow acc video)
    (hnull : chatIdFalsy (effectiveChatId acc.state up video.videoId) = true) :
    (processVideo up now disallow files acc video).2 =
      { video with chatFetched := true } ∧
    (processVideo up now disallow files acc video).1.state video.videoId =
      some { liveChatId := some none, nextPageToken := some none } ∧
    (processVideo up now disallow files acc video).1.writes = acc.writes ∧
    (processVideo up now disallow files acc video).1.processed =
      acc.processed ∧
    (∀ (up2 : Upstream) (now2 : Nat) (d2 : List String)
        (f2 : String → FileRead TranscriptDoc) (acc2 : RunAcc),
      processVideo up2 now2 d2 f2 acc2 { video with chatFetched := true } =
        (acc2, { video with chatFetched := true })) ∧
    (∀ (up2 : Upstream) (now2 : Nat) (d2 : List String)
        (f2 : String → FileRead TranscriptDoc) (acc2 : RunAcc)
        (v2 : VideoEntry),
      acc2.state v2.videoId =
          some { liveChatId := some none, nextPageToken := some none } →
      (processVideo up2 now2 d2 f2 acc2 v2).1.queried = acc2.queried) := by
  rw [processVideo_terminal up now disallow files acc video hb hnull]
  refine ⟨rfl, by simp [updState], rfl, rfl, ?_, ?_⟩
  · intro up2 now2 d2 f2 acc2
    exact processVideo_skip_guard up2 now2 d2 f2 acc2 _
      (Or.inr (Or.inl rfl))
  · intro up2 now2 d2 f2 acc2 v2 hstored
    by_cases hd : d2.contains v2.videoId = true
    · rw [processVideo_skip_disallowed up2 now2 d2 f2 acc2 v2 hd]
    · have hd2 : d2.contains v2.videoId = false := by simpa using hd
      by_cases hg : v2.status = "live" ∧ v2.chatFetched = false ∧
          acc2.processed < MAX_VIDEOS_PER_RUN
      · have hb2 : inBody d2 acc2 v2 := ⟨hd2, hg.1, hg.2.1, hg.2.2⟩
        have heff : effectiveChatId acc2.state up2 v2.videoId = none := by
          simp [effectiveChatId, hstored]
        rw [processVideo_terminal up2 now2 d2 f2 acc2 v2 hb2
          (by rw [heff]; rfl)]
        simp [hstored]
      · rw [processVideo_skip_guard up2 now2 d2 f2 acc2 v2
          (guard_disj acc2 v2 hg)]

/-- Concrete fixtures for the Archiver witnesses: an upstream whose session
query finds no chat, an empty transcript store, the empty initial
accumulator, and one live candidate video. -/
def up0 : Upstream :=
  { session := fun _ => none
    pages := fun _ _ => { items := [], next := none } }

def files0 : String → FileRead TranscriptDoc := fun _ => .missing

def acc0 : RunAcc := initAcc .missing

def video0 : VideoEntry :=
  { videoId := "v1", channelKey := "channelA", channelName := "ChannelA",
    publishedAt := 10, title := "t", status := "live", chatFetched := false }

/-- C3 (witness): the terminal null-session theorem at the concrete fixtures. -/
theorem null_session_terminal_witness :
    (processVideo up0 0 [] files0 acc0 video0).2 =
      { video0 with chatFetched := true } ∧
    (processVideo up0 0 [] files0 acc0 video0).1.state video0.videoId =
      some { liveChatId := some none, nextPageToken := some none } ∧
    (processVideo up0 0 [] files0 acc0 video0).1.writes = acc0.writes ∧
    (processVideo up0 0 [] files0 acc0 video0).1.processed = acc0.processed ∧
    (∀ (up2 : Upstream) (now2 : Nat) (d2 : List String)
        (f2 : String → FileRead TranscriptDoc) (acc2 : RunAcc),
      processVideo up2 now2 d2 f2 acc2 { video0 with chatFetched := true } =
        (acc2, { video0 with chatFetched := true })) ∧
    (∀ (up2 : Upstream) (now2 : Nat) (d2 : List String)
        (f2 : String → FileRead TranscriptDoc) (acc2 : RunAcc)
        (v2 : VideoEntry),
      acc2.state v2.videoId =
          some { liveChatId := some none, nextPageToken := some none } →
      (processVideo up2 now2 d2 f2 acc2 v2).1.queried = acc2.queried) :=
  null_session_terminal up0 0 [] files0 acc0 video0
    (by refine ⟨rfl, rfl, rfl, ?_⟩; decide) rfl

/-- C4: for a processed live video whose session resolved, if the fetch loop
ends with the JS-`null` token (a page had no items, or the next token was
absent — pagination exhausted) the stored continuation token is reset to the
empty string, and if the loop ends because the page budget ran out while a
token was still present, that token is stored; in both cases `chatFetched`
stays `false`. -/
theorem live_pagination_tokens (up : Upstream) (now : Nat)
    (disallow : List String) (files : String → FileRead TranscriptDoc)
    (acc : RunAcc) (video : VideoEntry) (chatId : String)
    (hb : inBody disallow acc video)
    (hchat : effectiveChatId acc.state up video.videoId = some chatId)
    (hne : ¬ chatId = "") :
    ((archiveFetch up files acc.state acc.writes video chatId).2 = none →
      (processVideo up now disallow files acc video).1.state video.videoId =
        some { liveChatId := some (some chatId),
               nextPageToken := some (some "") }) ∧
    (∀ t, (archiveFetch up files acc.state acc.writes video chatId).2 = some t →
      (processVideo up now disallow files acc video).1.state video.videoId =
        some { liveChatId := some (some chatId),
               nextPageToken := some (some t) }) ∧
    (processVideo up now disallow files acc video).2.chatFetched = false := by
  rw [processVideo_fetch up now disallow files acc video chatId hb hchat hne]
  refine ⟨?_, ?_, ?_⟩
  · intro hft
    simp [hft, hb.2.1, updState]
  · intro t hft
    simp [hft, updState]
  · cases hft : (archiveFetch up files acc.state acc.writes video chatId).2 with
    | none => simp [hft, hb.2.1, hb.2.2.1]
    | some t => simp [hft, hb.2.2.1]

/-- Upstream fixture for the C4 witness: the session of `v1` is `chat1`,
whose single page carries one message and no next token. -/
def up4 : Upstream :=
  { session := fun v => if v = "v1" then some "chat1" else none
    pages := fun c i =>
      if c = "chat1" ∧ i = 0 then { items := [msg0], next := none }
      else { items := [], next := none } }

/-- C4 (witness): at the concrete fixtures the pagination of `v1` is
exhausted on the first page, so the stored token is reset to `""` and
`chatFetched` stays `false`. -/
theorem live_pagination_tokens_witness :
    (processVideo up4 0 [] files0 acc0 video0).1.state video0.videoId =
      some { liveChatId := some (some "chat1"),
             nextPageToken := some (some "") } ∧
    (processVideo up4 0 [] files0 acc0 video0).2.chatFetched = false := by
  have h := live_pagination_tokens up4 0 [] files0 acc0 video0 "chat1"
    (by refine ⟨rfl, rfl, rfl, ?_⟩; decide) rfl (by decide)
  exact ⟨h.1 (by decide), h.2.2⟩

theorem processVideo_processed_le (up : Upstream) (now : Nat)
    (disallow : List String) (files : String → FileRead TranscriptDoc)
    (acc : RunAcc) (video : VideoEntry)
    (h : acc.processed ≤ MAX_VIDEOS_PER_RUN) :
    (processVideo up now disallow files acc video).1.processed ≤
      MAX_VIDEOS_PER_RUN := by
  by_cases hd : disallow.contains video.videoId = true
  · rw [processVideo_skip_disallowed up now disallow files acc video hd]
    exact h
  · have hd2 : disallow.contains video.videoId = false := by simpa using hd
    by_cases hg : video.status = "live" ∧ video.chatFetched = false ∧
        acc.processed < MAX_VIDEOS_PER_RUN
    · have hb : inBody disallow acc video := ⟨hd2, hg.1, hg.2.1, hg.2.2⟩
      by_cases hnull :
          chatIdFalsy (effectiveChatId acc.state up video.videoId) = true
      · rw [processVideo_terminal up now disallow files acc video hb hnull]
        exact h
      · rcases chatId_of_not_falsy _ hnull with ⟨c, hc, hcne⟩
        rw [processVideo_fetch up now disallow files acc video c hb hc hcne]
        exact hg.2.2
    · rw [processVideo_skip_guard up now disallow files acc video
        (guard_disj acc video hg)]
      exact h

/-- C5 (amended): the `processed` counter — incremented exactly when a video
reaches the fetch stage (lines 195-289) — never exceeds
`MAX_VIDEOS_PER_RUN`, so at most `K` videos are fetch-processed per
invocation; attempts that end in the terminal null-session branch `continue`
before the counter is incremented (line 163) and are therefore **not**
bounded by `K`. -/
theorem processed_bounded (up : Upstream) (now : Nat)
    (disallow : List String) (files : String → FileRead TranscriptDoc)
    (videos : List VideoEntry) (acc : RunAcc)
    (h : acc.processed ≤ MAX_VIDEOS_PER_RUN) :
    (runLoop up now disallow files videos acc).2.processed ≤
      MAX_VIDEOS_PER_RUN := by
  induction videos generalizing acc with
  | nil => exact h
  | cons v vs ih =>
    exact ih _ (processVideo_processed_le up now disallow files acc v h)

/-- Six live candidate videos, all of whose session queries return `null`. -/
def videos6 : List VideoEntry :=
  ["v1", "v2", "v3", "v4", "v5", "v6"].map fun i =>
    { videoId := i, channelKey := "channelA", channelName := "ChannelA",
      publishedAt := 1, title := "t", status := "live", chatFetched := false }

/-- C5 (counterexample): with six eligible live candidates whose session
handles are all unavailable, all six are attempted (each one issues a session
query and is terminally marked) although `MAX_VIDEOS_PER_RUN = 5` — the
terminal null-session branch skips the `processed++` line, so the number of
*attempted* videos is not bounded by the brake. -/
theorem budget_attempted_exceeded :
    ¬ ((runLoop up0 0 [] files0 videos6 (initAcc .missing)).2.attempted.length ≤
      MAX_VIDEOS_PER_RUN) := by
  decide

/-- C5 (witness): the amended bound at the same six-candidate input — the
`processed` counter stays within the brake. -/
theorem processed_bounded_witness :
    (runLoop up0 0 [] files0 videos6 (initAcc .missing)).2.processed ≤
      MAX_VIDEOS_PER_RUN :=
  processed_bounded up0 0 [] files0 videos6 (initAcc .missing) (by decide)

/-! ## Corrupt local state (C8) -/

/-- Replace every corrupt transcript file by a missing one. -/
def purgeFiles (files : String → FileRead TranscriptDoc) :
    String → FileRead TranscriptDoc :=
  fun p =>
    match files p with
    | .corrupt => .missing
    | x => x

theorem readTranscript_purge (w : String → Option TranscriptDoc)
    (files : String → FileRead TranscriptDoc) (p : String) :
    readTranscript w (purgeFiles files) p = readTranscript w files p := by
  rw [readTranscript, readTranscript]
  cases w p with
  | some d => rfl
  | none => cases hf : files p <;> simp [purgeFiles, hf]

theorem archiveFetch_purge (up : Upstream)
    (files : String → FileRead TranscriptDoc) (st : String → Option VState)
    (w : String → Option TranscriptDoc) (video : VideoEntry)
    (chatId : String) :
    archiveFetch up (purgeFiles files) st w video chatId =
      archiveFetch up files st w video chatId := by
  rw [archiveFetch, archiveFetch, readTranscript_purge]

theorem processVideo_purge (up : Upstream) (now : Nat)
    (disallow : List String) (files : String → FileRead TranscriptDoc)
    (acc : RunAcc) (video : VideoEntry) :
    processVideo up now disallow (purgeFiles files) acc video =
      processVideo up now disallow files acc video := by
  rw [processVideo, processVideo]
  simp only [archiveFetch_purge, readTranscript_purge]

theorem runLoop_purge (up : Upstream) (now : Nat) (disallow : List String)
    (files : String → FileRead TranscriptDoc) (videos : List VideoEntry)
    (acc : RunAcc) :
    runLoop up now disallow (purgeFiles files) videos acc =
      runLoop up now disallow files videos acc := by
  induction videos generalizing acc with
  | nil => rfl
  | cons v vs ih =>
    rw [runLoop, runLoop, processVideo_purge, ih]

/-- C8 (counterexample): a `videos.json` that exists but does not parse makes
the Archiver's `JSON.parse` throw (line 97, no try/catch), aborting the whole
invocation — the registry is *not* treated as absent/empty. -/
theorem corrupt_registry_aborts :
    archiverMain .corrupt .missing files0 up0 0 [] =
      .error "videos.json is not valid JSON" :=
  rfl

/-- C8 (amended): a corrupt cursor store and corrupt transcript documents are
treated as absent (the Archiver run is unchanged if they are replaced by
missing files), and Discovery treats a corrupt registry as an empty one; but
a corrupt (or missing) video registry **aborts** the Archiver invocation, see
the counterexample. -/
theorem corrupt_local_state_recovered :
    (∀ (vids : FileRead (List VideoEntry))
        (files : String → FileRead TranscriptDoc) (up : Upstream) (now : Nat)
        (disallow : List String),
      archiverMain vids .corrupt files up now disallow =
        archiverMain vids .missing files up now disallow) ∧
    (∀ (vids : FileRead (List VideoEntry))
        (stateFile : FileRead (String → Option VState))
        (files : String → FileRead TranscriptDoc) (up : Upstream) (now : Nat)
        (disallow : List String),
      archiverMain vids stateFile (purgeFiles files) up now disallow =
        archiverMain vids stateFile files up now disallow) ∧
    (∀ (channels : List (String × Channel)) (up : String → List RawVideo),
      discoveryMain .corrupt channels up = discoveryMain .missing channels up) := by
  refine ⟨?_, ?_, fun channels up => rfl⟩
  · intro vids files up now disallow
    cases vids <;> rfl
  · intro vids stateFile files up now disallow
    cases vids with
    | missing => rfl
    | corrupt => rfl
    | ok videos => rw [archiverMain, archiverMain, runLoop_purge]
